import Mathlib

/-!
Verification of the BLF-to-CSV converter (`src/script.py`).

The script consumes the lazy sequence of decoded records produced by the
external `BLFReader` library, filters error frames, formats each record as a
CSV row, and exposes a small CLI.  The embedding below models:

* `Msg` — the decoded record (`can.Message`) as observed by the script.  The
  source's `msg.timestamp` is a Python float (seconds); it is modelled here at
  fixed microsecond resolution (`timestamp_us`), which is exact for the
  decimal-formatting property the spec states (`%.6f` always emits exactly six
  fractional digits).  The source's `hasattr(msg, 'channel')` probing is
  modelled as an `Option`.
* the row-formatting expressions of `convert_blf_to_csv` (lines 72-87),
* the message loop with the error-frame option and counters (lines 62-90),
* the exception handling of `convert_blf_to_csv` (lines 99-109), with the
  possible failure points (opening the BLF file, each step of reader
  iteration) made explicit,
* the CLI of `main` (lines 148-170): input-existence check and default output
  path (`pathlib.Path.with_suffix('.csv')`).

The BLF binary codec itself is not part of src/ (the script only calls the
library); where a claim depends on it, the relevant piece is modelled from the
spec and marked as such in its doc comment.
-/

namespace BlfConv

/-- Decoded CAN record as the script observes it (`can.Message`).
`timestamp_us` models the float `msg.timestamp` at microsecond resolution. -/
structure Msg where
  timestamp_us : Nat
  channel : Option Nat
  arbitration_id : Nat
  is_extended_id : Bool
  is_remote_frame : Bool
  is_error_frame : Bool
  dlc : Nat
  data : List Nat
deriving DecidableEq

/-- One formatted CSV data row, fields as written by `csv.DictWriter`. -/
structure Row where
  timestamp : String
  channel : String
  arbitration_id : String
  is_extended_id : String
  is_remote_frame : String
  is_error_frame : String
  dlc : String
  data : String
deriving DecidableEq

/-- A decimal digit character, `d < 10`. -/
def decDigitChar (d : Nat) : Char := Char.ofNat (48 + d)

/-- An uppercase hexadecimal digit character, `d < 16` (as in `{:X}`). -/
def hexDigitU (d : Nat) : Char :=
  if d < 10 then Char.ofNat (48 + d) else Char.ofNat (55 + d)

/-- Python `str(n)` for a nonnegative int: decimal digits, most significant
first. -/
def pyStrNat (n : Nat) : String :=
  if n = 0 then "0" else String.mk ((Nat.digits 10 n).reverse.map decDigitChar)

/-- Python `str` on a bool: `"True"` / `"False"`. -/
def pyStrBool (b : Bool) : String := if b then "True" else "False"

/-- Python `f'{n:X}'`: uppercase hexadecimal, no leading zeros, `"0"` for 0. -/
def natToHexUpper (n : Nat) : String :=
  if n = 0 then "0" else String.mk ((Nat.digits 16 n).reverse.map hexDigitU)

/-- Python `f'{b:02X}'`: uppercase hex, zero-padded to at least two digits. -/
def hex2 (b : Nat) : String :=
  if (natToHexUpper b).length < 2 then "0" ++ natToHexUpper b else natToHexUpper b

/-- Zero-pad a digit string on the left to width `w`. -/
def padZeroTo (w : Nat) (s : String) : String :=
  String.mk (List.replicate (w - s.length) '0' ++ s.data)

/-- The six fractional digits of `f'{t:.6f}'` for `t` with microsecond part
`k` (`k < 1000000`). -/
def frac6 (k : Nat) : String := padZeroTo 6 (pyStrNat k)

/-- `f'{msg.timestamp:.6f}'` with the float timestamp modelled as `us`
microseconds. -/
def formatTimestamp (us : Nat) : String :=
  pyStrNat (us / 1000000) ++ "." ++ frac6 (us % 1000000)

/-- Python `' '.join(strs)`. -/
def joinSpace : List String → String
  | [] => ""
  | [s] => s
  | s :: rest => s ++ " " ++ joinSpace rest

/-- `' '.join([f'{byte:02X}' for byte in msg.data]) if msg.data else ''`
(line 72). -/
def dataHex (bytes : List Nat) : String :=
  if bytes.isEmpty then "" else joinSpace (bytes.map hex2)

/-- The row dictionary built at lines 75-84 of `convert_blf_to_csv`. -/
def msgToRow (msg : Msg) : Row :=
  { timestamp := formatTimestamp msg.timestamp_us
    channel := match msg.channel with
      | some c => pyStrNat c
      | none => "N/A"
    arbitration_id := "0x" ++ natToHexUpper msg.arbitration_id
    is_extended_id := pyStrBool msg.is_extended_id
    is_remote_frame := pyStrBool msg.is_remote_frame
    is_error_frame := pyStrBool msg.is_error_frame
    dlc := pyStrNat msg.dlc
    data := dataHex msg.data }

/-- The `fieldnames` list (lines 47-56); also the header row written by
`writer.writeheader()`. -/
def csvHeader : List String :=
  ["timestamp", "channel", "arbitration_id", "is_extended_id",
   "is_remote_frame", "is_error_frame", "dlc", "data"]

/-- A `Row` in `fieldnames` order, as `csv.DictWriter` writes it. -/
def rowToList (r : Row) : List String :=
  [r.timestamp, r.channel, r.arbitration_id, r.is_extended_id,
   r.is_remote_frame, r.is_error_frame, r.dlc, r.data]

/-- An exception raised by the library during reader iteration.  Modelled
from the spec (section 7): decode errors carry an error kind and the byte
offset at which they occurred. -/
structure DecodeError where
  kind : String
  offset : Nat
deriving DecidableEq

/-- Modelled from the spec (section 7): the string rendering `str(e)` of a
library decode error names the error kind and the byte offset. -/
def pyStrErr (e : DecodeError) : String :=
  e.kind ++ " at offset " ++ pyStrNat e.offset

/-- One step of iterating the `BLFReader`: either it yields a decoded
message, or it raises. -/
inductive ReadEvent where
  | msg (m : Msg)
  | err (e : DecodeError)
deriving DecidableEq

/-- Whether a reader step yields a message (rather than raising). -/
def ReadEvent.isMsg : ReadEvent → Bool
  | ReadEvent.msg _ => true
  | ReadEvent.err _ => false

/-- Outcome of `open(blf_file_path, 'rb')` (and `BLFReader` construction). -/
inductive OpenResult where
  | ok
  | fileNotFound
  | permissionDenied
deriving DecidableEq

/-- State accumulated by the `for msg in reader` loop (lines 62-90):
the rows written so far, `message_count`, `error_count`, and the first
exception raised during iteration (if any), which aborts the loop. -/
structure LoopResult where
  rows : List Row
  message_count : Nat
  error_count : Nat
  firstError : Option DecodeError
deriving DecidableEq

/-- The message loop of `convert_blf_to_csv` (lines 62-90): skip and count
error frames unless `include_error_frames`, otherwise format and write one
row per message; a raised exception stops the loop at that point. -/
def runLoop (include_error_frames : Bool) : List ReadEvent → LoopResult
  | [] => ⟨[], 0, 0, none⟩
  | ReadEvent.err e :: _ => ⟨[], 0, 0, some e⟩
  | ReadEvent.msg m :: rest =>
    let r := runLoop include_error_frames rest
    if m.is_error_frame && !include_error_frames then
      ⟨r.rows, r.message_count, r.error_count + 1, r.firstError⟩
    else
      ⟨msgToRow m :: r.rows, r.message_count + 1, r.error_count, r.firstError⟩

/-- Result of `convert_blf_to_csv`: the output file contents (`none` when no
output file was created), the console messages, and the returned bool. -/
structure ConvResult where
  output : Option (List (List String))
  printed : List String
  success : Bool
deriving DecidableEq

/-- `convert_blf_to_csv` (lines 39-112).  `openRes` is the outcome of opening
the BLF file; `events` is the reader's iteration behaviour.  On
`FileNotFoundError` / `PermissionError` / any other exception the handlers at
lines 99-107 report and return `False`; rows already written stay in the
output file.  The per-10000-message progress prints and the `'-' * 50` banner
are elided. -/
def convert_blf_to_csv (openRes : OpenResult) (blf_file_path csv_file_path : String)
    (events : List ReadEvent) (include_error_frames : Bool) : ConvResult :=
  match openRes with
  | OpenResult.fileNotFound =>
    { output := none
      printed := ["Error: BLF file \x27" ++ blf_file_path ++ "\x27 not found."]
      success := false }
  | OpenResult.permissionDenied =>
    { output := none
      printed := ["Error: Permission denied accessing files."]
      success := false }
  | OpenResult.ok =>
    let r := runLoop include_error_frames events
    let fileLines := csvHeader :: r.rows.map rowToList
    match r.firstError with
    | some e =>
      { output := some fileLines
        printed := ["Error during conversion: " ++ pyStrErr e]
        success := false }
    | none =>
      { output := some fileLines
        printed := ["Conversion completed successfully!",
                    "Messages processed: " ++ pyStrNat r.message_count] ++
          (if 0 < r.error_count
            then ["Error frames skipped: " ++ pyStrNat r.error_count] else []) ++
          ["Output file: " ++ csv_file_path]
        success := true }

/-- Rightmost index of `target` in a character list (Python `str.rfind`). -/
def rfindIdx (target : Char) : List Char → Option Nat
  | [] => none
  | c :: cs =>
    match rfindIdx target cs with
    | some i => some (i + 1)
    | none => if c = target then some 0 else none

/-- Split a path into (directory part including the final slash, file name),
at the last `'/'`. -/
def splitAtLastSlash (cs : List Char) : List Char × List Char :=
  match rfindIdx '/' cs with
  | some i => (cs.take (i + 1), cs.drop (i + 1))
  | none => ([], cs)

/-- Length of `pathlib`'s `suffix` of a file name: the part from the last
dot, provided `0 < i < len(name) - 1`. -/
def nameSuffixLen (name : List Char) : Nat :=
  match rfindIdx '.' name with
  | some i => if 0 < i && i + 1 < name.length then name.length - i else 0
  | none => 0

/-- `pathlib.Path(path).with_suffix('.csv')` (line 157), modelled on plain
POSIX-style path strings: drop the name's suffix (if any) and append
`".csv"`. -/
def withSuffixCsv (path : String) : String :=
  let parts := splitAtLastSlash path.data
  let name := parts.2
  let keep := name.length - nameSuffixLen name
  String.mk (parts.1 ++ name.take keep ++ ['.', 'c', 's', 'v'])

/-- Result of `main` (lines 115-174): exit code, console output, the output
path handed to the converter (when one was chosen), and the output file. -/
structure CliResult where
  exitCode : Nat
  printed : List String
  outputPath : Option String
  output : Option (List (List String))
deriving DecidableEq

/-- `main` (lines 115-174): validate the input file's existence, choose the
output path (the explicit second argument, else the input with its extension
replaced by `.csv`), and run the conversion. -/
def runMain (inputExists : Bool) (openRes : OpenResult) (input_file : String)
    (output_file : Option String) (include_errors : Bool)
    (events : List ReadEvent) : CliResult :=
  if !inputExists then
    { exitCode := 1
      printed := ["Error: Input file \x27" ++ input_file ++ "\x27 does not exist."]
      outputPath := none
      output := none }
  else
    let outPath := match output_file with
      | some o => o
      | none => withSuffixCsv input_file
    let r := convert_blf_to_csv openRes input_file outPath events include_errors
    { exitCode := if r.success then 0 else 1
      printed := ["Converting BLF file: " ++ input_file,
                  "Output CSV file: " ++ outPath,
                  "Include error frames: " ++ pyStrBool include_errors] ++ r.printed
      outputPath := some outPath
      output := r.output }

/-- Modelled from the spec (section 8): `dlc_to_byte_length` — the identity
for DLC at most 8, the CAN-FD length table for DLC 9-15.  The table itself is
part of the BLF codec, which is not in src/ (the script delegates to the
library). -/
def dlc_to_byte_length (dlc : Nat) : Nat :=
  if dlc ≤ 8 then dlc
  else match dlc with
    | 9 => 12
    | 10 => 16
    | 11 => 20
    | 12 => 24
    | 13 => 32
    | 14 => 48
    | _ => 64

/-- Modelled from the spec (sections 3 and 4.4): the Object Body Decoder for
CAN frames, absent from src/ (the script delegates to the external
`BLFReader`).  It validates the DLC range, the DLC-to-byte-length
consistency, and the arbitration-ID bit width before returning a Record;
violations are `MalformedBody` decode errors. -/
def decodeCanBody (ts ch arb : Nat) (ext rem : Bool) (dlc : Nat)
    (payload : List Nat) : Except String Msg :=
  if 15 < dlc then
    Except.error "MalformedBody: CanMessage: invalid DLC"
  else if payload.length ≠ dlc_to_byte_length dlc then
    Except.error "MalformedBody: CanMessage: DLC/byte-length mismatch"
  else if ext = false ∧ 0x7FF < arb then
    Except.error "MalformedBody: CanMessage: arbitration-ID overflow"
  else if ext = true ∧ 0x1FFFFFFF < arb then
    Except.error "MalformedBody: CanMessage: arbitration-ID overflow"
  else
    Except.ok { timestamp_us := ts, channel := some ch, arbitration_id := arb,
                is_extended_id := ext, is_remote_frame := rem,
                is_error_frame := false, dlc := dlc, data := payload }

/-- Whether an `Except` is a success value. -/
def exceptOk {ε α : Type} : Except ε α → Bool
  | Except.ok _ => true
  | Except.error _ => false

/-- Value of one hexadecimal digit character. -/
def hexCharVal (c : Char) : Nat :=
  if c.isDigit then c.toNat - 48 else c.toNat - 55

/-- Numeric value denoted by a big-endian string of hex digit characters. -/
def hexVal (cs : List Char) : Nat :=
  cs.foldl (fun a c => 16 * a + hexCharVal c) 0

/-- Uppercase hexadecimal digit characters. -/
def isUpperHexDigit (c : Char) : Bool :=
  c.isDigit || ('A' ≤ c && c ≤ 'F')

/-- A concrete standard CAN message: ID 0x123, DLC 4,
data `[0x01, 0x02, 0x03, 0x04]`. -/
def sampleMsg : Msg :=
  { timestamp_us := 0, channel := some 1, arbitration_id := 0x123,
    is_extended_id := false, is_remote_frame := false, is_error_frame := false,
    dlc := 4, data := [0x01, 0x02, 0x03, 0x04] }

/-- A concrete error-frame record. -/
def sampleErrFrame : Msg :=
  { timestamp_us := 0, channel := none, arbitration_id := 0,
    is_extended_id := false, is_remote_frame := false, is_error_frame := true,
    dlc := 0, data := [] }

section Lemmas

/-- `String.append` concatenates the underlying character lists. -/
theorem string_data_append (a b : String) : (a ++ b).data = a.data ++ b.data := rfl

/-- `String.length` is the length of the underlying character list. -/
theorem string_data_length (s : String) : s.data.length = s.length := rfl

/-- Hex digit characters produced by `hexDigitU` are uppercase hex digits. -/
theorem hexDigitU_isUpper : ∀ d, d < 16 → isUpperHexDigit (hexDigitU d) = true := by
  decide

/-- `hexCharVal` inverts `hexDigitU` on digit values. -/
theorem hexCharVal_hexDigitU : ∀ d, d < 16 → hexCharVal (hexDigitU d) = d := by
  decide

/-- Characters produced by `decDigitChar` are decimal digits. -/
theorem decDigitChar_isDigit : ∀ d, d < 10 → (decDigitChar d).isDigit = true := by
  decide

/-- If `n < b ^ k` then `n` has at most `k` digits in base `b`. -/
theorem digits_length_le_of_lt_pow {b n k : Nat} (hb : 1 < b) (h : n < b ^ k) :
    (Nat.digits b n).length ≤ k := by
  by_contra hgt
  push_neg at hgt
  rcases Nat.eq_zero_or_pos n with h0 | hpos
  · subst h0; simp at hgt
  · have h1 : b ^ (Nat.digits b n).length ≤ b * n :=
      Nat.base_pow_length_digits_le b n hb (Nat.pos_iff_ne_zero.mp hpos)
    have h2 : b ^ (k + 1) ≤ b ^ (Nat.digits b n).length :=
      Nat.pow_le_pow_right (by omega) hgt
    have h3 : b ^ (k + 1) = b * b ^ k := by ring
    have h4 : b * b ^ k ≤ b * n := by omega
    have h5 : b ^ k ≤ n := Nat.le_of_mul_le_mul_left h4 (by omega)
    omega

/-- If `b ^ k ≤ n` then `n` has more than `k` digits in base `b`. -/
theorem lt_digits_length_of_pow_le {b n k : Nat} (hb : 1 < b) (h : b ^ k ≤ n) :
    k < (Nat.digits b n).length := by
  by_contra hle
  push_neg at hle
  have h1 : n < b ^ (Nat.digits b n).length := Nat.lt_base_pow_length_digits hb
  have h2 : b ^ (Nat.digits b n).length ≤ b ^ k := Nat.pow_le_pow_right (by omega) hle
  omega

/-- All characters of `natToHexUpper n` are uppercase hex digits. -/
theorem natToHexUpper_all_upper (n : Nat) :
    (natToHexUpper n).data.all isUpperHexDigit = true := by
  unfold natToHexUpper
  split
  · decide
  · show ((Nat.digits 16 n).reverse.map hexDigitU).all isUpperHexDigit = true
    rw [List.all_eq_true]
    intro c hc
    obtain ⟨d, hd, rfl⟩ := List.mem_map.mp hc
    exact hexDigitU_isUpper d
      (Nat.digits_lt_base (by norm_num) (List.mem_reverse.mp hd))

/-- Folding big-endian digit accumulation equals `Nat.ofDigits` on the
little-endian digit list. -/
theorem foldr_eq_ofDigits (l : List Nat) :
    l.foldr (fun d acc => 16 * acc + d) 0 = Nat.ofDigits 16 l := by
  induction l with
  | nil => simp [Nat.ofDigits_nil]
  | cons d L ih =>
    simp only [List.foldr_cons, Nat.ofDigits_cons, ih]
    ring

/-- The hex string printed for `n` denotes `n`. -/
theorem hexVal_natToHexUpper (n : Nat) : hexVal (natToHexUpper n).data = n := by
  unfold natToHexUpper
  split
  · rename_i h; subst h; decide
  · show hexVal ((Nat.digits 16 n).reverse.map hexDigitU) = n
    unfold hexVal
    rw [List.foldl_map]
    have h1 : List.foldl (fun a d => 16 * a + hexCharVal (hexDigitU d)) 0
          (Nat.digits 16 n).reverse
        = List.foldl (fun a d => 16 * a + d) 0 (Nat.digits 16 n).reverse := by
      apply List.foldl_ext
      intro a d hd
      rw [hexCharVal_hexDigitU d
        (Nat.digits_lt_base (by norm_num) (List.mem_reverse.mp hd))]
    rw [h1, List.foldl_reverse, foldr_eq_ofDigits]
    have h2 := Nat.ofDigits_digits 16 n
    exact_mod_cast h2

/-- All characters of `pyStrNat n` are decimal digits. -/
theorem pyStrNat_all_digits (n : Nat) :
    (pyStrNat n).data.all Char.isDigit = true := by
  unfold pyStrNat
  split
  · decide
  · show ((Nat.digits 10 n).reverse.map decDigitChar).all Char.isDigit = true
    rw [List.all_eq_true]
    intro c hc
    obtain ⟨d, hd, rfl⟩ := List.mem_map.mp hc
    exact decDigitChar_isDigit d
      (Nat.digits_lt_base (by norm_num) (List.mem_reverse.mp hd))

/-- `pyStrNat n` is never the empty string. -/
theorem pyStrNat_length_pos (n : Nat) : 0 < (pyStrNat n).length := by
  unfold pyStrNat
  split
  · decide
  · rename_i h
    rw [← string_data_length]
    show 0 < ((Nat.digits 10 n).reverse.map decDigitChar).length
    rw [List.length_map, List.length_reverse]
    exact List.length_pos.mpr (Nat.digits_ne_nil_iff_ne_zero.mpr h)

/-- Decimal rendering of `n < 10 ^ k` takes at most `k` characters. -/
theorem pyStrNat_length_le {k n : Nat} (hk : 0 < k) (h : n < 10 ^ k) :
    (pyStrNat n).length ≤ k := by
  unfold pyStrNat
  split
  · show ("0" : String).length ≤ k
    simpa using hk
  · rw [← string_data_length]
    show ((Nat.digits 10 n).reverse.map decDigitChar).length ≤ k
    rw [List.length_map, List.length_reverse]
    exact digits_length_le_of_lt_pow (by norm_num) h

/-- The fractional part rendered by `frac6` has exactly six characters. -/
theorem frac6_length {k : Nat} (h : k < 1000000) : (frac6 k).length = 6 := by
  unfold frac6 padZeroTo
  rw [← string_data_length]
  show (List.replicate (6 - (pyStrNat k).length) '0' ++ (pyStrNat k).data).length = 6
  rw [List.length_append, List.length_replicate, string_data_length]
  have h6 : (pyStrNat k).length ≤ 6 :=
    pyStrNat_length_le (by norm_num) (by norm_num; omega)
  omega

/-- The fractional part rendered by `frac6` is all decimal digits. -/
theorem frac6_all_digits (k : Nat) : (frac6 k).data.all Char.isDigit = true := by
  unfold frac6 padZeroTo
  show (List.replicate (6 - (pyStrNat k).length) '0' ++ (pyStrNat k).data).all
    Char.isDigit = true
  rw [List.all_append, Bool.and_eq_true]
  refine ⟨?_, pyStrNat_all_digits k⟩
  rw [List.all_eq_true]
  intro c hc
  rw [List.eq_of_mem_replicate hc]
  decide

/-- Length of the bare hex rendering of a nonzero `n` is its digit count. -/
theorem natToHexUpper_length {n : Nat} (h : n ≠ 0) :
    (natToHexUpper n).length = (Nat.digits 16 n).length := by
  unfold natToHexUpper
  rw [if_neg h, ← string_data_length]
  show ((Nat.digits 16 n).reverse.map hexDigitU).length = (Nat.digits 16 n).length
  rw [List.length_map, List.length_reverse]

/-- `f'{b:02X}'` produces exactly two characters for a byte value. -/
theorem hex2_length {b : Nat} (h : b < 256) : (hex2 b).length = 2 := by
  unfold hex2
  by_cases h16 : b < 16
  · have h1 : (natToHexUpper b).length = 1 := by
      rcases Nat.eq_zero_or_pos b with h0 | hpos
      · subst h0; decide
      · rw [natToHexUpper_length (by omega)]
        have hle : (Nat.digits 16 b).length ≤ 1 :=
          digits_length_le_of_lt_pow (by norm_num) (by simpa using h16)
        have hlt : 0 < (Nat.digits 16 b).length :=
          List.length_pos.mpr (Nat.digits_ne_nil_iff_ne_zero.mpr (by omega))
        omega
    rw [if_pos (by omega)]
    rw [← string_data_length, string_data_append]
    rw [List.length_append, string_data_length, string_data_length, h1]
    decide
  · have h2 : (natToHexUpper b).length = 2 := by
      rw [natToHexUpper_length (by omega)]
      have hle : (Nat.digits 16 b).length ≤ 2 :=
        digits_length_le_of_lt_pow (by norm_num) (by norm_num; omega)
      have hlt : 1 < (Nat.digits 16 b).length :=
        lt_digits_length_of_pow_le (by norm_num) (by simpa using h16)
      omega
    rw [if_neg (by omega)]
    exact h2

/-- All characters of `hex2 b` are uppercase hex digits. -/
theorem hex2_all_upper (b : Nat) : (hex2 b).data.all isUpperHexDigit = true := by
  unfold hex2
  split
  · rw [string_data_append, List.all_append, Bool.and_eq_true]
    exact ⟨by decide, natToHexUpper_all_upper b⟩
  · exact natToHexUpper_all_upper b

/-- The two-character rendering `hex2 b` denotes `b`. -/
theorem hexVal_hex2 (b : Nat) : hexVal (hex2 b).data = b := by
  unfold hex2
  split
  · rw [string_data_append]
    show hexVal ('0' :: (natToHexUpper b).data) = b
    unfold hexVal
    rw [List.foldl_cons]
    have h0 : 16 * 0 + hexCharVal '0' = 0 := by decide
    rw [h0]
    exact hexVal_natToHexUpper b
  · exact hexVal_natToHexUpper b

/-- Characters of a space-join are characters of the parts or spaces. -/
theorem joinSpace_all (p : Char → Bool) (hsp : p ' ' = true) :
    ∀ l : List String, (∀ s ∈ l, s.data.all p = true) →
      (joinSpace l).data.all p = true
  | [] => fun _ => rfl
  | [s] => fun h => h s (by simp)
  | s :: s' :: rest => fun h => by
    show ((s ++ " " ++ joinSpace (s' :: rest))).data.all p = true
    rw [string_data_append, string_data_append, List.all_append, List.all_append]
    simp only [Bool.and_eq_true]
    refine ⟨⟨h s (by simp), by simpa using hsp⟩, ?_⟩
    exact joinSpace_all p hsp (s' :: rest) (fun t ht => h t (List.mem_cons_of_mem s ht))

/-- Every character of the formatted data column is an uppercase hex digit
or a space. -/
theorem dataHex_chars (l : List Nat) :
    (dataHex l).data.all (fun c => isUpperHexDigit c || c = ' ') = true := by
  unfold dataHex
  split
  · decide
  · apply joinSpace_all _ (by decide)
    intro s hs
    obtain ⟨b, _, rfl⟩ := List.mem_map.mp hs
    have h := hex2_all_upper b
    rw [List.all_eq_true] at h ⊢
    intro c hc
    rw [Bool.or_eq_true]
    exact Or.inl (h c hc)

/-- The loop never records an exception on a pure message stream, and its
counters on such a stream: with error frames excluded, one skipped count per
error frame and one row per other message; with them included, one row per
message and no skips. -/
theorem runLoop_msgs_spec (inc : Bool) : ∀ msgs : List Msg,
    (runLoop inc (msgs.map ReadEvent.msg)).firstError = none ∧
    (runLoop false (msgs.map ReadEvent.msg)).rows.length
      = (msgs.filter (fun x => !x.is_error_frame)).length ∧
    (runLoop false (msgs.map ReadEvent.msg)).error_count
      = (msgs.filter (fun x => x.is_error_frame)).length ∧
    (runLoop true (msgs.map ReadEvent.msg)).rows.length = msgs.length ∧
    (runLoop true (msgs.map ReadEvent.msg)).error_count = 0
  | [] => by simp [runLoop]
  | m :: rest => by
    have ih := runLoop_msgs_spec inc rest
    have ihf := runLoop_msgs_spec false rest
    have iht := runLoop_msgs_spec true rest
    cases hm : m.is_error_frame <;>
      simp [runLoop, hm, List.filter_cons, ih.1, ihf.2.1, ihf.2.2.1,
        iht.2.2.2.1, iht.2.2.2.2] <;>
      cases inc <;> simp [runLoop, hm, ihf.1, iht.1]

/-- Iteration raising after a prefix of messages: the loop keeps the rows and
counters of the prefix and records the first exception; events after the
exception are never reached. -/
theorem runLoop_prefix_err (inc : Bool) (e : DecodeError) (post : List ReadEvent) :
    ∀ pre : List Msg,
      (runLoop inc (pre.map ReadEvent.msg ++ ReadEvent.err e :: post)).rows
        = (runLoop inc (pre.map ReadEvent.msg)).rows ∧
      (runLoop inc (pre.map ReadEvent.msg ++ ReadEvent.err e :: post)).message_count
        = (runLoop inc (pre.map ReadEvent.msg)).message_count ∧
      (runLoop inc (pre.map ReadEvent.msg ++ ReadEvent.err e :: post)).error_count
        = (runLoop inc (pre.map ReadEvent.msg)).error_count ∧
      (runLoop inc (pre.map ReadEvent.msg ++ ReadEvent.err e :: post)).firstError
        = some e
  | [] => by simp [runLoop]
  | m :: rest => by
    have ih := runLoop_prefix_err inc e post rest
    simp only [List.map_cons, List.cons_append, runLoop]
    split <;> simp [ih.1, ih.2.1, ih.2.2.1, ih.2.2.2]

/-- `String.append` is associative. -/
theorem string_append_assoc (a b c : String) : a ++ b ++ c = a ++ (b ++ c) := by
  apply String.ext
  rw [string_data_append, string_data_append, string_data_append,
    string_data_append, List.append_assoc]

/-- Concrete hex rendering of `0x123`. -/
theorem natToHexUpper_291 : natToHexUpper 291 = "123" := by
  unfold natToHexUpper
  norm_num [Nat.digits_def']
  decide

/-- Concrete two-digit hex renderings of the sample data bytes. -/
theorem hex2_sample_bytes :
    hex2 1 = "01" ∧ hex2 2 = "02" ∧ hex2 3 = "03" ∧ hex2 4 = "04" := by
  refine ⟨?_, ?_, ?_, ?_⟩ <;>
    (unfold hex2 natToHexUpper; norm_num [Nat.digits_def']; decide)

/-- The loop result never records an exception when iteration never raises. -/
theorem runLoop_firstError_none (inc : Bool) : ∀ evs : List ReadEvent,
    ((runLoop inc evs).firstError = none ↔ evs.all ReadEvent.isMsg = true)
  | [] => by simp [runLoop]
  | ReadEvent.err e :: rest => by simp [runLoop, ReadEvent.isMsg]
  | ReadEvent.msg m :: rest => by
    have ih := runLoop_firstError_none inc rest
    simp only [runLoop, List.all_cons, ReadEvent.isMsg, Bool.true_and]
    split <;> simpa using ih

/-- With the BLF file successfully opened, the output file always starts with
the header row, followed by the rows the loop wrote. -/
theorem convert_ok_output (p q : String) (evs : List ReadEvent) (inc : Bool) :
    (convert_blf_to_csv OpenResult.ok p q evs inc).output
      = some (csvHeader :: (runLoop inc evs).rows.map rowToList) := by
  unfold convert_blf_to_csv
  rcases hfe : (runLoop inc evs).firstError with _ | e <;> simp [hfe]

end Lemmas

section Claims

/-- C1: with the include-error-frames option disabled, each error-frame
record produces no output row and bumps the skipped count by exactly one;
enabled, it produces exactly one row.  An input of a single error frame
yields no rows and skipped count 1 when disabled, one row when enabled; and
over any pure message sequence the aggregate counts follow. -/
theorem claim_error_frame_option (msgs : List Msg) (rest : List ReadEvent)
    (m : Msg) (hm : m.is_error_frame = true) :
    (runLoop false (ReadEvent.msg m :: rest)).rows = (runLoop false rest).rows ∧
    (runLoop false (ReadEvent.msg m :: rest)).error_count
      = (runLoop false rest).error_count + 1 ∧
    (runLoop true (ReadEvent.msg m :: rest)).rows
      = msgToRow m :: (runLoop true rest).rows ∧
    (runLoop false [ReadEvent.msg m]).rows = [] ∧
    (runLoop false [ReadEvent.msg m]).error_count = 1 ∧
    (runLoop true [ReadEvent.msg m]).rows = [msgToRow m] ∧
    (runLoop false (msgs.map ReadEvent.msg)).rows.length
      = (msgs.filter (fun x => !x.is_error_frame)).length ∧
    (runLoop false (msgs.map ReadEvent.msg)).error_count
      = (msgs.filter (fun x => x.is_error_frame)).length ∧
    (runLoop true (msgs.map ReadEvent.msg)).rows.length = msgs.length ∧
    (runLoop true (msgs.map ReadEvent.msg)).error_count = 0 := by
  have hs := runLoop_msgs_spec false msgs
  refine ⟨?_, ?_, ?_, ?_, ?_, ?_, hs.2.1, hs.2.2.1, hs.2.2.2.1, hs.2.2.2.2⟩ <;>
    simp [runLoop, hm]

/-- Witness for C1 at a concrete error-frame record. -/
theorem claim_error_frame_option_witness :
    (runLoop false [ReadEvent.msg sampleErrFrame]).rows = [] ∧
    (runLoop false [ReadEvent.msg sampleErrFrame]).error_count = 1 ∧
    (runLoop true [ReadEvent.msg sampleErrFrame]).rows
      = [msgToRow sampleErrFrame] := by
  have h := claim_error_frame_option [] [] sampleErrFrame (by decide)
  exact ⟨h.2.2.2.1, h.2.2.2.2.1, h.2.2.2.2.2.1⟩

/-- C2: a single standard CAN message with ID 0x123, DLC 4 and data bytes
01 02 03 04 yields exactly one data row, with arbitration_id `"0x123"`,
is_extended_id `"False"`, and data `"01 02 03 04"`. -/
theorem claim_single_standard_message (m : Msg) (inc : Bool)
    (hid : m.arbitration_id = 0x123) (hext : m.is_extended_id = false)
    (herr : m.is_error_frame = false) (hdlc : m.dlc = 4)
    (hdata : m.data = [0x01, 0x02, 0x03, 0x04]) :
    (runLoop inc [ReadEvent.msg m]).rows = [msgToRow m] ∧
    (runLoop inc [ReadEvent.msg m]).message_count = 1 ∧
    (runLoop inc [ReadEvent.msg m]).error_count = 0 ∧
    (msgToRow m).arbitration_id = "0x123" ∧
    (msgToRow m).is_extended_id = "False" ∧
    (msgToRow m).data = "01 02 03 04" := by
  refine ⟨by simp [runLoop, herr], by simp [runLoop, herr], by simp [runLoop, herr],
    ?_, ?_, ?_⟩
  · show "0x" ++ natToHexUpper m.arbitration_id = "0x123"
    rw [hid, natToHexUpper_291]
    decide
  · show pyStrBool m.is_extended_id = "False"
    rw [hext]
    rfl
  · show dataHex m.data = "01 02 03 04"
    rw [hdata]
    show joinSpace [hex2 1, hex2 2, hex2 3, hex2 4] = "01 02 03 04"
    rw [hex2_sample_bytes.1, hex2_sample_bytes.2.1, hex2_sample_bytes.2.2.1,
      hex2_sample_bytes.2.2.2]
    decide

/-- Witness for C2 at the concrete sample message. -/
theorem claim_single_standard_message_witness :
    (msgToRow sampleMsg).arbitration_id = "0x123" ∧
    (msgToRow sampleMsg).is_extended_id = "False" ∧
    (msgToRow sampleMsg).data = "01 02 03 04" := by
  have h := claim_single_standard_message sampleMsg false rfl rfl rfl rfl rfl
  exact ⟨h.2.2.2.1, h.2.2.2.2.1, h.2.2.2.2.2⟩

/-- C3: every written row formats the timestamp with exactly six decimal
places, the arbitration ID as 0x-prefixed (value-correct) uppercase
hexadecimal, and the data bytes as space-separated two-digit uppercase hex;
and the output file's first line is the literal header row in order. -/
theorem claim_row_formats_and_header (m : Msg) (inc : Bool) (p q : String)
    (evs : List ReadEvent) (hbytes : ∀ b ∈ m.data, b < 256) :
    (msgToRow m).timestamp
      = pyStrNat (m.timestamp_us / 1000000) ++ "."
        ++ frac6 (m.timestamp_us % 1000000) ∧
    (frac6 (m.timestamp_us % 1000000)).length = 6 ∧
    (frac6 (m.timestamp_us % 1000000)).data.all Char.isDigit = true ∧
    (pyStrNat (m.timestamp_us / 1000000)).data.all Char.isDigit = true ∧
    0 < (pyStrNat (m.timestamp_us / 1000000)).length ∧
    (msgToRow m).arbitration_id = "0x" ++ natToHexUpper m.arbitration_id ∧
    (natToHexUpper m.arbitration_id).data.all isUpperHexDigit = true ∧
    hexVal (natToHexUpper m.arbitration_id).data = m.arbitration_id ∧
    (∀ b ∈ m.data, (hex2 b).length = 2 ∧
      (hex2 b).data.all isUpperHexDigit = true ∧ hexVal (hex2 b).data = b) ∧
    (msgToRow m).data.data.all (fun c => isUpperHexDigit c || c = ' ') = true ∧
    (convert_blf_to_csv OpenResult.ok p q evs inc).output
      = some (["timestamp", "channel", "arbitration_id", "is_extended_id",
               "is_remote_frame", "is_error_frame", "dlc", "data"]
              :: (runLoop inc evs).rows.map rowToList) := by
  refine ⟨rfl, frac6_length (Nat.mod_lt _ (by norm_num)), frac6_all_digits _,
    pyStrNat_all_digits _, pyStrNat_length_pos _, rfl,
    natToHexUpper_all_upper _, hexVal_natToHexUpper _,
    fun b hb => ⟨hex2_length (hbytes b hb), hex2_all_upper b, hexVal_hex2 b⟩,
    dataHex_chars m.data, ?_⟩
  rw [convert_ok_output]
  rfl

/-- Witness for C3 at the concrete sample message. -/
theorem claim_row_formats_and_header_witness :
    (frac6 (sampleMsg.timestamp_us % 1000000)).length = 6 ∧
    hexVal (natToHexUpper sampleMsg.arbitration_id).data
      = sampleMsg.arbitration_id ∧
    (msgToRow sampleMsg).data.data.all
      (fun c => isUpperHexDigit c || c = ' ') = true := by
  have h := claim_row_formats_and_header sampleMsg false "in.blf" "out.csv" []
    (by decide)
  exact ⟨h.2.1, h.2.2.2.2.2.2.2.1, h.2.2.2.2.2.2.2.2.2.1⟩

/-- C4: every Record the CAN body decoder produces has a data byte sequence
whose length equals the byte length implied by its DLC. -/
theorem claim_dlc_length_invariant (ts ch arb : Nat) (ext rem : Bool)
    (dlc : Nat) (payload : List Nat) (m : Msg)
    (h : decodeCanBody ts ch arb ext rem dlc payload = Except.ok m) :
    m.data.length = dlc_to_byte_length m.dlc := by
  unfold decodeCanBody at h
  split_ifs at h with h1 h2 h3 h4
  obtain rfl : _ = m := by injection h
  show payload.length = dlc_to_byte_length dlc
  exact not_ne_iff.mp h2

/-- Witness for C4 at a concrete successful decode. -/
theorem claim_dlc_length_invariant_witness :
    sampleMsg.data.length = dlc_to_byte_length sampleMsg.dlc :=
  claim_dlc_length_invariant 0 1 291 false false 4 [1, 2, 3, 4] sampleMsg rfl

/-- C5: every CanMessage Record the decoder produces has an arbitration ID
within the bit width implied by its extended-ID flag, and an out-of-range ID
makes the decoder fail rather than emit a truncated Record. -/
theorem claim_arbitration_id_bounds (ts ch arb : Nat) (ext rem : Bool)
    (dlc : Nat) (payload : List Nat) :
    (∀ m, decodeCanBody ts ch arb ext rem dlc payload = Except.ok m →
      (m.is_extended_id = false → m.arbitration_id ≤ 0x7FF) ∧
      (m.is_extended_id = true → m.arbitration_id ≤ 0x1FFFFFFF)) ∧
    (ext = false → 0x7FF < arb →
      exceptOk (decodeCanBody ts ch arb ext rem dlc payload) = false) ∧
    (ext = true → 0x1FFFFFFF < arb →
      exceptOk (decodeCanBody ts ch arb ext rem dlc payload) = false) := by
  refine ⟨?_, ?_, ?_⟩
  · intro m h
    unfold decodeCanBody at h
    split_ifs at h with h1 h2 h3 h4
    obtain rfl : _ = m := by injection h
    constructor
    · intro hext
      show arb ≤ 0x7FF
      have hx : ext = false := hext
      by_contra hgt
      exact h3 ⟨hx, by omega⟩
    · intro hext
      show arb ≤ 0x1FFFFFFF
      have hx : ext = true := hext
      by_contra hgt
      exact h4 ⟨hx, by omega⟩
  · intro hext harb
    unfold decodeCanBody
    split_ifs with h1 h2 h3 h4
    · rfl
    · rfl
    · rfl
    · rfl
    · exact absurd ⟨hext, harb⟩ h3
  · intro hext harb
    unfold decodeCanBody
    split_ifs with h1 h2 h3 h4
    · rfl
    · rfl
    · rfl
    · rfl
    · exact absurd ⟨hext, harb⟩ h4

/-- Witness for C5: a concrete in-range decode and a concrete overflow
rejection. -/
theorem claim_arbitration_id_bounds_witness :
    sampleMsg.arbitration_id ≤ 0x7FF ∧
    exceptOk (decodeCanBody 0 1 0x800 false false 0 []) = false := by
  have h := claim_arbitration_id_bounds 0 1 291 false false 4 [1, 2, 3, 4]
  have h2 := claim_arbitration_id_bounds 0 1 0x800 false false 0 []
  exact ⟨(h.1 sampleMsg rfl).1 rfl, h2.2.1 rfl (by norm_num)⟩

/-- C6: the first exception raised during iteration aborts the conversion:
no row after it is written, the reported message carries the error kind and
byte offset, and the partially-written output file (header plus the rows of
the prefix) is left in place. -/
theorem claim_first_error_aborts (pre : List Msg) (post : List ReadEvent)
    (e : DecodeError) (inc : Bool) (p q : String) :
    (convert_blf_to_csv OpenResult.ok p q
        (pre.map ReadEvent.msg ++ ReadEvent.err e :: post) inc).success
      = false ∧
    (convert_blf_to_csv OpenResult.ok p q
        (pre.map ReadEvent.msg ++ ReadEvent.err e :: post) inc).output
      = some (csvHeader
          :: (runLoop inc (pre.map ReadEvent.msg)).rows.map rowToList) ∧
    (convert_blf_to_csv OpenResult.ok p q
        (pre.map ReadEvent.msg ++ ReadEvent.err e :: post) inc).printed
      = ["Error during conversion: " ++ e.kind ++ " at offset "
          ++ pyStrNat e.offset] := by
  have hp := runLoop_prefix_err inc e post pre
  unfold convert_blf_to_csv
  simp only [hp.1, hp.2.2.2, pyStrErr]
  refine ⟨trivial, trivial, ?_⟩
  simp only [string_append_assoc]

/-- C7: a CLI invocation naming a non-existent input file reports an error
naming the file, exits with status 1, and writes no output file. -/
theorem claim_missing_input_cli (o : OpenResult) (input : String)
    (outArg : Option String) (inc : Bool) (evs : List ReadEvent) :
    (runMain false o input outArg inc evs).exitCode = 1 ∧
    (runMain false o input outArg inc evs).printed
      = ["Error: Input file \x27" ++ input ++ "\x27 does not exist."] ∧
    (runMain false o input outArg inc evs).output = none ∧
    (runMain false o input outArg inc evs).outputPath = none := by
  refine ⟨rfl, rfl, rfl, rfl⟩

/-- C8: with the output argument omitted the CLI uses the input path with its
extension replaced by `.csv`; with the argument given it uses that path
verbatim; and `with_suffix` behaves as claimed on concrete paths. -/
theorem claim_default_output_path (input outArg : String) (o : OpenResult)
    (inc : Bool) (evs : List ReadEvent) :
    (runMain true o input none inc evs).outputPath
      = some (withSuffixCsv input) ∧
    (runMain true o input (some outArg) inc evs).outputPath = some outArg ∧
    withSuffixCsv "data/capture.blf" = "data/capture.csv" ∧
    withSuffixCsv "capture.tar.blf" = "capture.tar.csv" ∧
    withSuffixCsv "noext" = "noext.csv" := by
  exact ⟨rfl, rfl, by decide, by decide, by decide⟩

/-- C9: `convert_blf_to_csv` always returns a boolean rather than
propagating: `True` exactly when opening succeeded and no iteration step
raised, `False` otherwise — and it always reports something. -/
theorem claim_convert_no_exception (o : OpenResult) (p q : String)
    (evs : List ReadEvent) (inc : Bool) :
    ((convert_blf_to_csv o p q evs inc).success = true ↔
      o = OpenResult.ok ∧ evs.all ReadEvent.isMsg = true) ∧
    0 < (convert_blf_to_csv o p q evs inc).printed.length := by
  cases o with
  | fileNotFound => simp [convert_blf_to_csv]
  | permissionDenied => simp [convert_blf_to_csv]
  | ok =>
    unfold convert_blf_to_csv
    rcases hfe : (runLoop inc evs).firstError with _ | e
    · have hall := (runLoop_firstError_none inc evs).mp hfe
      simp [hfe, hall]
    · have hall : ¬evs.all ReadEvent.isMsg = true := by
        intro hc
        rw [← runLoop_firstError_none inc evs] at hc
        rw [hfe] at hc
        exact Option.noConfusion hc
      simp [hfe, hall]

/-- Witness for C9 at concrete failing and succeeding inputs. -/
theorem claim_convert_no_exception_witness :
    (convert_blf_to_csv OpenResult.fileNotFound "a.blf" "a.csv" [] false).success
      = false ∧
    (convert_blf_to_csv OpenResult.ok "a.blf" "a.csv" [] false).success
      = true := by
  constructor
  · have h := (claim_convert_no_exception OpenResult.fileNotFound "a.blf"
      "a.csv" [] false).1
    cases hs : (convert_blf_to_csv OpenResult.fileNotFound "a.blf" "a.csv" []
      false).success
    · rfl
    · exact absurd (h.mp hs).1 (by decide)
  · exact (claim_convert_no_exception OpenResult.ok "a.blf" "a.csv" []
      false).1.mpr ⟨rfl, rfl⟩

/-- C10: a record without a channel attribute gets the literal `'N/A'` in the
channel column; with the attribute present the column carries its value. -/
theorem claim_channel_na (m : Msg) :
    (m.channel = none → (msgToRow m).channel = "N/A") ∧
    (∀ c, m.channel = some c → (msgToRow m).channel = pyStrNat c) := by
  constructor
  · intro h
    show (match m.channel with
      | some c => pyStrNat c
      | none => "N/A") = "N/A"
    rw [h]
  · intro c h
    show (match m.channel with
      | some c => pyStrNat c
      | none => "N/A") = pyStrNat c
    rw [h]

/-- Witness for C10 at concrete records with and without a channel. -/
theorem claim_channel_na_witness :
    (msgToRow sampleErrFrame).channel = "N/A" ∧
    (msgToRow sampleMsg).channel = pyStrNat 1 :=
  ⟨(claim_channel_na sampleErrFrame).1 rfl, (claim_channel_na sampleMsg).2 1 rfl⟩

end Claims

end BlfConv
